import Mathlib

/-!
Verification of the protocol-execution engine of the aries-framework-go
repository (listener registration, persistent pending-action queuing,
continuation resolution, dispatch) and of its sidetree DID-creation helper.

The engine itself is described by the design specification; only its REST
adapters and tests ship in the sources at hand, so the engine is modelled
from the specification's words (each such definition says so in its doc
comment).  The sidetree helpers (`CreateDID`, `getCreateRequest`,
`getOpaqueDocument`) are translated directly from the Go source.
-/

namespace Engine

/-- Error kinds of the engine, from the spec's error-handling design:
AlreadyRegistered, NotFound, UnsupportedTransition, StorageError,
DeliveryError. -/
inductive ErrKind : Type
  | alreadyRegistered
  | notFound
  | unsupportedTransition
  | storageError
  | deliveryError
deriving DecidableEq, Repr

/-- Modelled from the spec: a message handled by the Dispatcher: its type
and its body (the wire format is owned by the protocol's policy data). -/
structure Message where
  msgType : String
  body : String
deriving DecidableEq, Repr

/-- Modelled from the spec: PendingAction is
`{piid, protocolType, payload, continuationSchema, registeredAt}`; created
when a transition requires confirmation, removed on
ActionContinue/ActionStop. -/
structure PendingAction where
  piid : String
  protocolType : String
  payload : Message
  continuationSchema : String
  registeredAt : Nat
deriving DecidableEq, Repr

/-- Modelled from the spec: ProtocolInstance is
`{piid, protocolType, state, label, createdAt, threadID}`. -/
structure ProtocolInstance where
  piid : String
  protocolType : String
  state : String
  label : String
  createdAt : Nat
  threadID : String
deriving DecidableEq, Repr

/-- Observable micro-steps of the engine, recorded in order: persisting a
pending action, synchronously delivering an action event to the single
action listener, delivering a message event.  Each carries the engine's
logical clock at the moment it happened. -/
inductive LogEntry : Type
  | savedAction (piid : String) (t : Nat)
  | deliveredActionEvent (piid : String) (t : Nat)
  | deliveredMsgEvent (piid : String) (t : Nat)
deriving DecidableEq, Repr

/-- Modelled from the spec: the result of the Transition Table's
`step(state, messageType, payload)`:
`{nextState, outboundMessages[], requiresAction, continuationSchema}`. -/
structure StepResult where
  nextState : String
  outboundMessages : List Message
  requiresAction : Bool
  continuationSchema : String
deriving DecidableEq, Repr

/-- Modelled from the spec: per-protocol-type policy data — a finite state
set with one initial state, an abandoned terminal state for ActionStop, and
a total step function. -/
structure TransitionTable where
  initialState : String
  abandonedState : String
  step : String → String → String → StepResult

/-- Modelled from the spec: the engine's whole observable state — the
durable Action Store (a keyed list of pending actions in persistence
order), the single optional action listener, the message listeners, the
protocol instances, the micro-step log and a logical clock used as the
persistence timestamp. -/
structure EngineState where
  store : List PendingAction
  actionListener : Option String
  msgListeners : List String
  instances : List ProtocolInstance
  log : List LogEntry
  clock : Nat
deriving DecidableEq, Repr

/-- The engine's state at startup: empty store, no listeners, no
instances. -/
def initState : EngineState :=
  { store := [], actionListener := none, msgListeners := [],
    instances := [], log := [], clock := 0 }

/-- Modelled from the spec: Action Store `Get(piid)` — the action stored
under the piid, if any. -/
def storeGet (store : List PendingAction) (piid : String) : Option PendingAction :=
  store.find? (fun a => a.piid = piid)

/-- Modelled from the spec: Action Store `Delete(piid)` — idempotent
removal. -/
def storeDelete (store : List PendingAction) (piid : String) : List PendingAction :=
  store.filter (fun a => a.piid ≠ piid)

/-- Modelled from the spec: Action Store `Save(piid, action)` — idempotent
upsert keyed by piid; the upserted entry carries the latest persistence
timestamp, keeping the store in persistence order. -/
def storeSave (store : List PendingAction) (a : PendingAction) : List PendingAction :=
  storeDelete store a.piid ++ [a]

/-- Look up the protocol instance for a piid. -/
def instGet (insts : List ProtocolInstance) (piid : String) : Option ProtocolInstance :=
  insts.find? (fun i => i.piid = piid)

/-- Replace-or-append a protocol instance, keyed by piid. -/
def instSet (insts : List ProtocolInstance) (inst : ProtocolInstance) : List ProtocolInstance :=
  insts.filter (fun i => i.piid ≠ inst.piid) ++ [inst]

/-- Modelled from the spec: the Dispatcher resolves the piid to its
instance, or mints a fresh instance in the protocol's initial state for a
protocol-initiating message. -/
def resolveInstance (tt : TransitionTable) (s : EngineState)
    (piid protocolType : String) : ProtocolInstance :=
  match instGet s.instances piid with
  | some inst => inst
  | none =>
      { piid := piid, protocolType := protocolType, state := tt.initialState,
        label := "", createdAt := s.clock, threadID := "" }

/-- Modelled from the spec: the Dispatcher's handling of an inbound
message.  Resolve the piid (minting a fresh instance in the initial state
when needed) and invoke step().  If the result requires confirmation,
persist a PendingAction — a storage failure (saveOk = false) is fatal: the
operation aborts with StorageError, nothing is committed and no event is
raised — then synchronously raise the action event to the single listener;
the committed state does not advance.  Otherwise commit the new state and
raise a message event. -/
def dispatch (tt : TransitionTable) (saveOk : Bool) (s : EngineState)
    (piid protocolType : String) (msg : Message) : Except ErrKind EngineState :=
  let inst := resolveInstance tt s piid protocolType
  let r := tt.step inst.state msg.msgType msg.body
  if r.requiresAction then
    if saveOk then
      let a : PendingAction :=
        { piid := piid, protocolType := protocolType, payload := msg,
          continuationSchema := r.continuationSchema, registeredAt := s.clock }
      .ok { s with
        store := storeSave s.store a,
        instances := instSet s.instances inst,
        log := s.log ++ [LogEntry.savedAction piid s.clock,
                         LogEntry.deliveredActionEvent piid (s.clock + 1)],
        clock := s.clock + 2 }
    else .error .storageError
  else
    .ok { s with
      instances := instSet s.instances { inst with state := r.nextState },
      log := s.log ++ [LogEntry.deliveredMsgEvent piid s.clock],
      clock := s.clock + 1 }

/-- Modelled from the spec: ActionContinue(piid, options) — load the
PendingAction (NotFound if absent), re-invoke step() with the options
merged into the payload, commit the result, delete the PendingAction,
raise a message event. -/
def actionContinue (tt : TransitionTable) (s : EngineState)
    (piid options : String) : Except ErrKind EngineState :=
  match storeGet s.store piid with
  | none => .error .notFound
  | some a =>
    let inst := resolveInstance tt s piid a.protocolType
    let r := tt.step inst.state a.payload.msgType (a.payload.body ++ options)
    .ok { s with
      store := storeDelete s.store piid,
      instances := instSet s.instances { inst with state := r.nextState },
      log := s.log ++ [LogEntry.deliveredMsgEvent piid s.clock],
      clock := s.clock + 1 }

/-- Modelled from the spec: ActionStop(piid, reason) — load the
PendingAction (NotFound if absent), transition to the protocol's abandoned
terminal state, delete the PendingAction, raise a message event. -/
def actionStop (tt : TransitionTable) (s : EngineState)
    (piid reason : String) : Except ErrKind EngineState :=
  match storeGet s.store piid with
  | none => .error .notFound
  | some a =>
    let inst := resolveInstance tt s piid a.protocolType
    .ok { s with
      store := storeDelete s.store piid,
      instances := instSet s.instances
        { inst with state := tt.abandonedState, label := reason },
      log := s.log ++ [LogEntry.deliveredMsgEvent piid s.clock],
      clock := s.clock + 1 }

/-- Modelled from the spec: RegisterActionEvent(listener) fails with
AlreadyRegistered if one is set, else stores it. -/
def registerActionEvent (s : EngineState) (l : String) : Except ErrKind EngineState :=
  match s.actionListener with
  | some _ => .error .alreadyRegistered
  | none => .ok { s with actionListener := some l }

/-- Modelled from the spec: UnregisterActionEvent removes the stored
reference (modelled as a no-op success when none is registered, the
explicitly chosen policy the spec leaves open). -/
def unregisterActionEvent (s : EngineState) : Except ErrKind EngineState :=
  .ok { s with actionListener := none }

/-- Modelled from the spec: RegisterMsgEvent(listener) appends to an
unbounded set. -/
def registerMsgEvent (s : EngineState) (l : String) : Except ErrKind EngineState :=
  .ok { s with msgListeners := s.msgListeners ++ [l] }

/-- Modelled from the spec: Actions() — a snapshot of the Action Store,
in persistence-timestamp order; it never fails, returning a possibly
empty sequence. -/
def actions (s : EngineState) : Except ErrKind (List PendingAction) :=
  .ok s.store

/-- Modelled from the spec: an out-of-band request artifact; its id serves
as the piid of the protocol instance it initiates. -/
structure OOBRequest where
  reqId : String
  body : String
deriving DecidableEq, Repr

/-- Modelled from the spec: the Out-of-Band transition table — states
{initial, requested, awaiting-response, done}; AcceptInvitation and
AcceptRequest move initial→done directly with no confirmation step. -/
def oobStep (state msgType : String) (_body : String) : StepResult :=
  if state = "initial" ∧ (msgType = "accept-request" ∨ msgType = "accept-invitation") then
    { nextState := "done", outboundMessages := [], requiresAction := false,
      continuationSchema := "" }
  else
    { nextState := state, outboundMessages := [], requiresAction := false,
      continuationSchema := "" }

/-- The Out-of-Band transition table with its initial state. -/
def oobTable : TransitionTable :=
  { initialState := "initial", abandonedState := "done", step := oobStep }

/-- Modelled from the spec: AcceptRequest(request, label) — resolve the
instance, step initial→done with no confirmation (so no PendingAction is
persisted and the Action Store is untouched), and return a connection
identifier. -/
def oobAcceptRequest (s : EngineState) (req : OOBRequest) (label : String) :
    String × EngineState :=
  let inst := resolveInstance oobTable s req.reqId "out-of-band"
  let r := oobStep inst.state "accept-request" req.body
  ("connection-" ++ req.reqId,
   { s with
     instances := instSet s.instances { inst with state := r.nextState, label := label },
     clock := s.clock + 1 })

/-- Modelled from the spec: an out-of-band request attachment (an opaque
payload; the empty attachment `{}` has empty data). -/
structure Attachment where
  data : String
deriving DecidableEq, Repr

/-- Modelled from the spec: CreateRequest is a pure construction — it
builds a signed request artifact from the attachments and service entries
and changes no engine state.  The artifact is modelled as its serialized,
signed text. -/
def oobCreateRequest (s : EngineState) (attachments : List Attachment)
    (service : List String) : (Except ErrKind String) × EngineState :=
  (.ok ("signed-request(attachments:" ++ toString attachments.length ++
        ";service:" ++ String.intercalate "," service ++ ")"), s)

/-- The engine's public operations, as invoked by the host application or
the transport.  `inbound` carries whether the Action Store save succeeds
for that dispatch (the storage collaborator may fail). -/
inductive Op : Type
  | inbound (saveOk : Bool) (piid protocolType : String) (msg : Message)
  | resolveContinue (piid options : String)
  | resolveStop (piid reason : String)
  | regAction (l : String)
  | unregAction
  | regMsg (l : String)
  | accept (req : OOBRequest) (label : String)
  | create (attachments : List Attachment) (service : List String)
deriving Repr

/-- A failed public operation leaves the engine's state untouched. -/
def applyE (s : EngineState) : Except ErrKind EngineState → EngineState
  | .ok s' => s'
  | .error _ => s

/-- Run one public operation, keeping the prior state when it errors. -/
def runOp (tt : TransitionTable) (s : EngineState) : Op → EngineState
  | .inbound saveOk piid pt msg => applyE s (dispatch tt saveOk s piid pt msg)
  | .resolveContinue piid opts => applyE s (actionContinue tt s piid opts)
  | .resolveStop piid reason => applyE s (actionStop tt s piid reason)
  | .regAction l => applyE s (registerActionEvent s l)
  | .unregAction => applyE s (unregisterActionEvent s)
  | .regMsg l => applyE s (registerMsgEvent s l)
  | .accept req label => (oobAcceptRequest s req label).2
  | .create atts svc => (oobCreateRequest s atts svc).2

/-- Run a sequence of public operations from a state. -/
def runOps (tt : TransitionTable) (s : EngineState) (ops : List Op) : EngineState :=
  ops.foldl (runOp tt) s

/-- The engine's observation-point invariant: piids are unique in the
Action Store (at most one PendingAction per piid), the store is sorted by
persistence timestamp, and every stored action was registered strictly in
the past with its action event already delivered to the listener (at the
step right after it was saved). -/
def Inv (s : EngineState) : Prop :=
  (s.store.map (fun a => a.piid)).Nodup ∧
  s.store.Pairwise (fun a b => a.registeredAt < b.registeredAt) ∧
  ∀ a ∈ s.store, a.registeredAt + 1 < s.clock ∧
    LogEntry.deliveredActionEvent a.piid (a.registeredAt + 1) ∈ s.log

theorem storeDelete_sublist (store : List PendingAction) (p : String) :
    (storeDelete store p).Sublist store :=
  List.filter_sublist store

theorem mem_storeDelete {store : List PendingAction} {p : String} {a : PendingAction}
    (h : a ∈ storeDelete store p) : a ∈ store ∧ a.piid ≠ p := by
  have := List.mem_filter.mp h
  exact ⟨this.1, by simpa using this.2⟩

theorem storeGet_eq_none_iff {store : List PendingAction} {p : String} :
    storeGet store p = none ↔ ∀ a ∈ store, a.piid ≠ p := by
  unfold storeGet
  rw [List.find?_eq_none]
  constructor
  · intro h a ha
    have := h a ha
    simpa using this
  · intro h a ha
    simpa using h a ha

theorem storeGet_storeDelete_self (store : List PendingAction) (p : String) :
    storeGet (storeDelete store p) p = none := by
  rw [storeGet_eq_none_iff]
  intro a ha
  exact (mem_storeDelete ha).2

theorem nodup_piids_storeSave {store : List PendingAction} {a : PendingAction}
    (h : (store.map (fun x => x.piid)).Nodup) :
    ((storeSave store a).map (fun x => x.piid)).Nodup := by
  unfold storeSave
  rw [List.map_append, List.nodup_append]
  refine ⟨?_, by simp, ?_⟩
  · exact ((storeDelete_sublist store a.piid).map _).nodup h
  · intro x hx
    simp only [List.mem_map] at hx
    obtain ⟨b, hb, rfl⟩ := hx
    simpa using (mem_storeDelete hb).2

theorem inv_dispatch {tt : TransitionTable} {saveOk : Bool} {s : EngineState}
    {piid pt : String} {msg : Message} {s' : EngineState}
    (hInv : Inv s) (h : dispatch tt saveOk s piid pt msg = .ok s') : Inv s' := by
  obtain ⟨hnd, hpw, hlog⟩ := hInv
  unfold dispatch at h
  by_cases hra : (tt.step (resolveInstance tt s piid pt).state msg.msgType msg.body).requiresAction
  · rw [if_pos hra] at h
    cases saveOk with
    | false => simp at h
    | true =>
      rw [if_pos rfl] at h
      cases h
      refine ⟨nodup_piids_storeSave hnd, ?_, ?_⟩
      · unfold storeSave
        rw [List.pairwise_append]
        refine ⟨hpw.sublist (storeDelete_sublist _ _), by simp, ?_⟩
        intro b hb c hc
        simp only [List.mem_singleton] at hc
        subst hc
        have hb' := (mem_storeDelete hb).1
        exact Nat.lt_of_succ_lt (hlog b hb').1
      · intro b hb
        unfold storeSave at hb
        rcases List.mem_append.mp hb with hb | hb
        · have hb' := (mem_storeDelete hb).1
          exact ⟨Nat.lt_of_lt_of_le (hlog b hb').1 (Nat.le_add_right _ 2),
            List.mem_append_left _ (hlog b hb').2⟩
        · simp only [List.mem_singleton] at hb
          subst hb
          exact ⟨Nat.lt_succ_self _, List.mem_append_right _ (by simp)⟩
  · rw [if_neg hra] at h
    cases h
    refine ⟨hnd, hpw, ?_⟩
    intro b hb
    exact ⟨Nat.lt_of_lt_of_le (hlog b hb).1 (Nat.le_add_right _ 1),
      List.mem_append_left _ (hlog b hb).2⟩

theorem inv_actionContinue {tt : TransitionTable} {s : EngineState}
    {piid opts : String} {s' : EngineState}
    (hInv : Inv s) (h : actionContinue tt s piid opts = .ok s') : Inv s' := by
  obtain ⟨hnd, hpw, hlog⟩ := hInv
  unfold actionContinue at h
  cases hget : storeGet s.store piid with
  | none => rw [hget] at h; exact absurd h (by simp)
  | some a =>
    rw [hget] at h
    cases h
    refine ⟨((storeDelete_sublist _ _).map _).nodup hnd,
      hpw.sublist (storeDelete_sublist _ _), ?_⟩
    intro b hb
    have hb' := (mem_storeDelete hb).1
    exact ⟨Nat.lt_of_lt_of_le (hlog b hb').1 (Nat.le_add_right _ 1),
      List.mem_append_left _ (hlog b hb').2⟩

theorem inv_actionStop {tt : TransitionTable} {s : EngineState}
    {piid reason : String} {s' : EngineState}
    (hInv : Inv s) (h : actionStop tt s piid reason = .ok s') : Inv s' := by
  obtain ⟨hnd, hpw, hlog⟩ := hInv
  unfold actionStop at h
  cases hget : storeGet s.store piid with
  | none => rw [hget] at h; exact absurd h (by simp)
  | some a =>
    rw [hget] at h
    cases h
    refine ⟨((storeDelete_sublist _ _).map _).nodup hnd,
      hpw.sublist (storeDelete_sublist _ _), ?_⟩
    intro b hb
    have hb' := (mem_storeDelete hb).1
    exact ⟨Nat.lt_of_lt_of_le (hlog b hb').1 (Nat.le_add_right _ 1),
      List.mem_append_left _ (hlog b hb').2⟩

theorem inv_runOp (tt : TransitionTable) (s : EngineState) (op : Op)
    (h : Inv s) : Inv (runOp tt s op) := by
  cases op with
  | inbound saveOk piid pt msg =>
    cases hd : dispatch tt saveOk s piid pt msg with
    | ok s' => simpa [runOp, applyE, hd] using inv_dispatch h hd
    | error e => simpa [runOp, applyE, hd] using h
  | resolveContinue piid opts =>
    cases hd : actionContinue tt s piid opts with
    | ok s' => simpa [runOp, applyE, hd] using inv_actionContinue h hd
    | error e => simpa [runOp, applyE, hd] using h
  | resolveStop piid reason =>
    cases hd : actionStop tt s piid reason with
    | ok s' => simpa [runOp, applyE, hd] using inv_actionStop h hd
    | error e => simpa [runOp, applyE, hd] using h
  | regAction l =>
    obtain ⟨hnd, hpw, hlog⟩ := h
    cases hl : s.actionListener with
    | some x =>
      simp only [runOp, registerActionEvent, hl, applyE]
      exact ⟨hnd, hpw, hlog⟩
    | none =>
      simp only [runOp, registerActionEvent, hl, applyE]
      exact ⟨hnd, hpw, hlog⟩
  | unregAction =>
    obtain ⟨hnd, hpw, hlog⟩ := h
    exact ⟨hnd, hpw, hlog⟩
  | regMsg l =>
    obtain ⟨hnd, hpw, hlog⟩ := h
    exact ⟨hnd, hpw, hlog⟩
  | accept req label =>
    obtain ⟨hnd, hpw, hlog⟩ := h
    refine ⟨hnd, hpw, ?_⟩
    intro b hb
    exact ⟨Nat.lt_of_lt_of_le (hlog b hb).1 (Nat.le_add_right _ 1), (hlog b hb).2⟩
  | create atts svc =>
    obtain ⟨hnd, hpw, hlog⟩ := h
    exact ⟨hnd, hpw, hlog⟩

theorem inv_initState : Inv initState := by
  refine ⟨by simp [initState], by simp [initState], ?_⟩
  intro a ha
  simp [initState] at ha

theorem inv_runOps (tt : TransitionTable) (ops : List Op) :
    Inv (runOps tt initState ops) := by
  suffices h : ∀ s, Inv s → Inv (runOps tt s ops) from h _ inv_initState
  induction ops with
  | nil => intro s hs; exact hs
  | cons op rest ih =>
    intro s hs
    exact ih _ (inv_runOp tt s op hs)

theorem countP_piid_mono {l : List PendingAction} {a : PendingAction} {p : String} :
    l.countP (fun b => b.piid = p) ≤ (a :: l).countP (fun b => b.piid = p) := by
  rw [List.countP_cons]
  omega

theorem nodup_piids_iff_countP {store : List PendingAction} :
    (store.map (fun a => a.piid)).Nodup ↔
      ∀ p, store.countP (fun a => a.piid = p) ≤ 1 := by
  induction store with
  | nil => simp
  | cons a l ih =>
    simp only [List.map_cons, List.nodup_cons, List.mem_map]
    constructor
    · rintro ⟨hnotmem, hnd⟩ p
      rw [List.countP_cons]
      by_cases hp : a.piid = p
      · have hzero : l.countP (fun b => b.piid = p) = 0 := by
          rw [List.countP_eq_zero]
          intro b hb
          simp only [decide_eq_true_eq]
          intro hb'
          exact hnotmem ⟨b, hb, by rw [hb', hp]⟩
        simp [hzero, hp]
      · have := (ih.mp hnd) p
        simpa [hp] using this
    · intro hcount
      refine ⟨?_, ih.mpr (fun p => le_trans countP_piid_mono (hcount p))⟩
      rintro ⟨b, hb, hbp⟩
      have h1 := hcount a.piid
      rw [List.countP_cons] at h1
      simp at h1
      have h2 : 0 < l.countP (fun c => c.piid = a.piid) :=
        List.countP_pos_iff.mpr ⟨b, hb, by simp [hbp]⟩
      rw [List.countP_eq_zero.mpr ?_] at h2
      · exact absurd h2 (by simp)
      · intro c hc
        simpa using h1 c hc

theorem dispatch_ok_store {tt : TransitionTable} {saveOk : Bool} {s : EngineState}
    {piid pt : String} {msg : Message} {s' : EngineState}
    (h : dispatch tt saveOk s piid pt msg = .ok s') :
    s'.store = s.store ∨ ∃ a, s'.store = storeSave s.store a := by
  unfold dispatch at h
  by_cases hra : (tt.step (resolveInstance tt s piid pt).state msg.msgType msg.body).requiresAction
  · rw [if_pos hra] at h
    cases saveOk with
    | false => simp at h
    | true =>
      rw [if_pos rfl] at h
      cases h
      exact Or.inr ⟨_, rfl⟩
  · rw [if_neg hra] at h
    cases h
    exact Or.inl rfl

theorem actionContinue_ok_store {tt : TransitionTable} {s : EngineState}
    {piid opts : String} {s' : EngineState}
    (h : actionContinue tt s piid opts = .ok s') :
    s'.store = storeDelete s.store piid := by
  unfold actionContinue at h
  cases hget : storeGet s.store piid with
  | none => rw [hget] at h; exact absurd h (by simp)
  | some a => rw [hget] at h; cases h; rfl

theorem actionStop_ok_store {tt : TransitionTable} {s : EngineState}
    {piid reason : String} {s' : EngineState}
    (h : actionStop tt s piid reason = .ok s') :
    s'.store = storeDelete s.store piid := by
  unfold actionStop at h
  cases hget : storeGet s.store piid with
  | none => rw [hget] at h; exact absurd h (by simp)
  | some a => rw [hget] at h; cases h; rfl

/-- The store of the state after any public operation is the old store,
the old store with one piid deleted, or the old store with one action
upserted. -/
theorem runOp_store (tt : TransitionTable) (s : EngineState) (op : Op) :
    (runOp tt s op).store = s.store ∨
    (∃ p, (runOp tt s op).store = storeDelete s.store p) ∨
    (∃ a, (runOp tt s op).store = storeSave s.store a) := by
  cases op with
  | inbound saveOk piid pt msg =>
    cases hd : dispatch tt saveOk s piid pt msg with
    | ok s' =>
      rcases dispatch_ok_store hd with h | ⟨a, h⟩
      · exact Or.inl (by simp [runOp, applyE, hd, h])
      · exact Or.inr (Or.inr ⟨a, by simp [runOp, applyE, hd, h]⟩)
    | error e => exact Or.inl (by simp [runOp, applyE, hd])
  | resolveContinue piid opts =>
    cases hd : actionContinue tt s piid opts with
    | ok s' =>
      exact Or.inr (Or.inl ⟨piid, by simp [runOp, applyE, hd, actionContinue_ok_store hd]⟩)
    | error e => exact Or.inl (by simp [runOp, applyE, hd])
  | resolveStop piid reason =>
    cases hd : actionStop tt s piid reason with
    | ok s' =>
      exact Or.inr (Or.inl ⟨piid, by simp [runOp, applyE, hd, actionStop_ok_store hd]⟩)
    | error e => exact Or.inl (by simp [runOp, applyE, hd])
  | regAction l =>
    cases hl : s.actionListener with
    | some x => exact Or.inl (by simp [runOp, registerActionEvent, hl, applyE])
    | none => exact Or.inl (by simp [runOp, registerActionEvent, hl, applyE])
  | unregAction => exact Or.inl rfl
  | regMsg l => exact Or.inl rfl
  | accept req label => exact Or.inl rfl
  | create atts svc => exact Or.inl rfl

/-- Each public operation preserves uniqueness of piids in the Action
Store. -/
theorem nodup_piids_runOp (tt : TransitionTable) (s : EngineState) (op : Op)
    (h : (s.store.map (fun a => a.piid)).Nodup) :
    ((runOp tt s op).store.map (fun a => a.piid)).Nodup := by
  rcases runOp_store tt s op with hst | ⟨p, hst⟩ | ⟨a, hst⟩
  · rw [hst]; exact h
  · rw [hst]; exact ((storeDelete_sublist _ _).map _).nodup h
  · rw [hst]; exact nodup_piids_storeSave h

theorem instGet_instSet (insts : List ProtocolInstance) (inst : ProtocolInstance) :
    instGet (instSet insts inst) inst.piid = some inst := by
  unfold instGet instSet
  rw [List.find?_append]
  have h1 : (insts.filter (fun i => i.piid ≠ inst.piid)).find?
      (fun i => i.piid = inst.piid) = none := by
    rw [List.find?_eq_none]
    intro x hx
    have := List.mem_filter.mp hx
    simpa using this.2
  rw [h1]
  simp

theorem instGet_instSet_key (insts : List ProtocolInstance)
    (inst : ProtocolInstance) (p : String) (hp : inst.piid = p) :
    instGet (instSet insts inst) p = some inst := by
  rw [← hp]
  exact instGet_instSet insts inst

/-- Modelled from the spec: the Introduce transition table — every inbound
message sets requiresAction = true, pausing the instance as a pending
action until ActionContinue or ActionStop resolves it. -/
def introduceStep (state _msgType _body : String) : StepResult :=
  { nextState := state, outboundMessages := [], requiresAction := true,
    continuationSchema := "continue-or-stop" }

/-- The Introduce transition table with its initial and abandoned states. -/
def introduceTable : TransitionTable :=
  { initialState := "start", abandonedState := "abandoned",
    step := introduceStep }

/-- A concrete pending action, as persisted by dispatching an inbound
introduce proposal at startup. -/
def samplePending : PendingAction :=
  { piid := "piid-1", protocolType := "introduce",
    payload := { msgType := "proposal", body := "b" },
    continuationSchema := "continue-or-stop", registeredAt := 0 }

/-- A concrete engine state holding exactly one pending action. -/
def samplePendingState : EngineState :=
  { store := [samplePending], actionListener := some "host",
    msgListeners := [],
    instances := [], clock := 2,
    log := [LogEntry.savedAction "piid-1" 0,
            LogEntry.deliveredActionEvent "piid-1" 1] }

/-- The concrete state after resolving the sample pending action with
ActionContinue. -/
def sampleContinued : EngineState :=
  applyE samplePendingState
    (actionContinue introduceTable samplePendingState "piid-1" "o")

/-- C1: at every observation point — a state reached from startup by any
sequence of public operations — each piid has at most one PendingAction in
the Action Store; moreover every public operation (dispatch of an inbound
message, ActionContinue and ActionStop among them) preserves this
property. -/
theorem pendingAction_unique_per_piid (tt : TransitionTable) :
    (∀ (ops : List Op) (p : String),
      (runOps tt initState ops).store.countP (fun a => a.piid = p) ≤ 1) ∧
    ∀ (s : EngineState),
      (∀ p, s.store.countP (fun a => a.piid = p) ≤ 1) →
      ∀ (op : Op) (p : String),
        (runOp tt s op).store.countP (fun a => a.piid = p) ≤ 1 := by
  constructor
  · intro ops p
    exact nodup_piids_iff_countP.mp (inv_runOps tt ops).1 p
  · intro s hs op p
    exact nodup_piids_iff_countP.mp
      (nodup_piids_runOp tt s op (nodup_piids_iff_countP.mpr hs)) p

theorem pendingAction_unique_per_piid_witness :
    (runOps introduceTable initState
        [Op.inbound true "piid-1" "introduce"
          { msgType := "proposal", body := "b" }]).store.countP
      (fun a => a.piid = "piid-1") ≤ 1 ∧
    (runOp introduceTable samplePendingState
        (Op.resolveStop "piid-1" "r")).store.countP
      (fun a => a.piid = "piid-1") ≤ 1 :=
  ⟨(pendingAction_unique_per_piid introduceTable).1 _ "piid-1",
   (pendingAction_unique_per_piid introduceTable).2 samplePendingState
     (fun p => by
       simp only [samplePendingState, List.countP_cons, List.countP_nil]
       split <;> simp)
     (Op.resolveStop "piid-1" "r") "piid-1"⟩

/-- C2: once a piid's PendingAction has been resolved by ActionContinue or
by ActionStop, any subsequent ActionContinue/ActionStop on that piid fails
with NotFound; more generally both calls fail with NotFound on a piid with
no PendingAction. -/
theorem resolved_piid_second_call_notFound (tt : TransitionTable)
    (s s' : EngineState) (p opts opts2 reason reason2 : String) :
    (storeGet s.store p = none →
      actionContinue tt s p opts = .error .notFound ∧
      actionStop tt s p reason = .error .notFound) ∧
    (actionContinue tt s p opts = .ok s' →
      actionContinue tt s' p opts2 = .error .notFound ∧
      actionStop tt s' p reason2 = .error .notFound) ∧
    (actionStop tt s p reason = .ok s' →
      actionContinue tt s' p opts2 = .error .notFound ∧
      actionStop tt s' p reason2 = .error .notFound) := by
  have base : ∀ (u : EngineState), storeGet u.store p = none →
      actionContinue tt u p opts2 = .error .notFound ∧
      actionStop tt u p reason2 = .error .notFound := by
    intro u hu
    constructor
    · unfold actionContinue
      rw [hu]
    · unfold actionStop
      rw [hu]
  refine ⟨?_, ?_, ?_⟩
  · intro h
    constructor
    · unfold actionContinue
      rw [h]
    · unfold actionStop
      rw [h]
  · intro h
    exact base s' (by rw [actionContinue_ok_store h]; exact storeGet_storeDelete_self _ _)
  · intro h
    exact base s' (by rw [actionStop_ok_store h]; exact storeGet_storeDelete_self _ _)

theorem resolved_piid_second_call_notFound_witness :
    (actionContinue introduceTable initState "piid-1" "o" = .error .notFound ∧
     actionStop introduceTable initState "piid-1" "r" = .error .notFound) ∧
    (actionContinue introduceTable sampleContinued "piid-1" "o" = .error .notFound ∧
     actionStop introduceTable sampleContinued "piid-1" "r" = .error .notFound) :=
  ⟨(resolved_piid_second_call_notFound introduceTable initState initState
      "piid-1" "o" "o" "r" "r").1 rfl,
   (resolved_piid_second_call_notFound introduceTable samplePendingState
      sampleContinued "piid-1" "o" "o" "r" "r").2.1 rfl⟩

/-- C3: when persisting the PendingAction of a confirmation-requiring
transition fails with a StorageError, the dispatch returns that error and
the engine's state is exactly as before: no committed state advances, no
PendingAction is stored, and no event is raised. -/
theorem storage_failure_aborts_dispatch (tt : TransitionTable) (s : EngineState)
    (piid pt : String) (msg : Message)
    (h : (tt.step (resolveInstance tt s piid pt).state msg.msgType
      msg.body).requiresAction = true) :
    dispatch tt false s piid pt msg = .error .storageError ∧
    runOp tt s (Op.inbound false piid pt msg) = s := by
  have hd : dispatch tt false s piid pt msg = .error .storageError := by
    unfold dispatch
    rw [if_pos h]
    rfl
  exact ⟨hd, by simp [runOp, applyE, hd]⟩

theorem storage_failure_aborts_dispatch_witness :
    dispatch introduceTable false initState "piid-1" "introduce"
      { msgType := "proposal", body := "b" } = .error .storageError ∧
    runOp introduceTable initState
      (Op.inbound false "piid-1" "introduce"
        { msgType := "proposal", body := "b" }) = initState :=
  storage_failure_aborts_dispatch introduceTable initState "piid-1" "introduce"
    { msgType := "proposal", body := "b" } rfl

/-- C4: AcceptRequest(request, label) returns a non-empty connection
identifier, moves the (fresh) instance directly from the out-of-band
initial state to the done state, and creates no PendingAction — the
Action Store is untouched. -/
theorem oobAcceptRequest_direct_done (s : EngineState) (req : OOBRequest)
    (label : String)
    (hfresh : instGet s.instances req.reqId = none) :
    (oobAcceptRequest s req label).1 ≠ "" ∧
    (resolveInstance oobTable s req.reqId "out-of-band").state =
      oobTable.initialState ∧
    ((instGet (oobAcceptRequest s req label).2.instances req.reqId).map
      (fun i => i.state)) = some "done" ∧
    (oobAcceptRequest s req label).2.store = s.store := by
  have hres : resolveInstance oobTable s req.reqId "out-of-band" =
      { piid := req.reqId, protocolType := "out-of-band",
        state := oobTable.initialState, label := "", createdAt := s.clock,
        threadID := "" } := by
    unfold resolveInstance
    rw [hfresh]
  refine ⟨?_, ?_, ?_, rfl⟩
  · intro hc
    have hlen := congrArg String.length hc
    unfold oobAcceptRequest at hlen
    rw [String.length_append] at hlen
    have h1 : "connection-".length = 11 := rfl
    have h2 : "".length = 0 := rfl
    rw [h1, h2] at hlen
    omega
  · rw [hres]
  · show ((instGet (instSet s.instances _) req.reqId).map (fun i => i.state)) = _
    rw [instGet_instSet_key s.instances _ req.reqId (by rw [hres])]
    simp only [Option.map_some']
    rw [hres]
    simp [oobStep, oobTable]

theorem oobAcceptRequest_direct_done_witness :
    (oobAcceptRequest initState { reqId := "r1", body := "" } "label").1 ≠ "" ∧
    (resolveInstance oobTable initState "r1" "out-of-band").state =
      oobTable.initialState ∧
    ((instGet (oobAcceptRequest initState { reqId := "r1", body := "" }
      "label").2.instances "r1").map (fun i => i.state)) = some "done" ∧
    (oobAcceptRequest initState { reqId := "r1", body := "" }
      "label").2.store = initState.store :=
  oobAcceptRequest_direct_done initState { reqId := "r1", body := "" }
    "label" rfl

/-- C5: CreateRequest with attachments = [\x7b\x7d] and service = [s1]
succeeds with a non-empty signed request, and — being a pure
construction — leaves the engine's state unchanged whatever it was. -/
theorem oobCreateRequest_pure_and_nonempty (s : EngineState) :
    (∃ r, (oobCreateRequest s [{ data := "" }] ["s1"]).1 = .ok r ∧ r ≠ "") ∧
    (oobCreateRequest s [{ data := "" }] ["s1"]).2 = s :=
  ⟨⟨"signed-request(attachments:1;service:s1)", rfl, by decide⟩, rfl⟩

/-- C6: RegisterActionEvent fails with AlreadyRegistered exactly when an
action listener is already registered, stores the listener otherwise, and
succeeds again after UnregisterActionEvent. -/
theorem registerActionEvent_conflict (s : EngineState) (l l2 : String) :
    (∀ l0, s.actionListener = some l0 →
      registerActionEvent s l = .error .alreadyRegistered) ∧
    (s.actionListener = none →
      registerActionEvent s l = .ok { s with actionListener := some l }) ∧
    ∀ s', unregisterActionEvent s = .ok s' →
      registerActionEvent s' l2 = .ok { s' with actionListener := some l2 } := by
  refine ⟨?_, ?_, ?_⟩
  · intro l0 h
    unfold registerActionEvent
    rw [h]
  · intro h
    unfold registerActionEvent
    rw [h]
  · intro s' h
    unfold unregisterActionEvent at h
    cases h
    rfl

theorem registerActionEvent_conflict_witness :
    registerActionEvent samplePendingState "L2" = .error .alreadyRegistered ∧
    registerActionEvent initState "L1" =
      .ok { initState with actionListener := some "L1" } ∧
    registerActionEvent
      (applyE samplePendingState (unregisterActionEvent samplePendingState))
      "L2" =
      .ok { applyE samplePendingState (unregisterActionEvent samplePendingState)
            with actionListener := some "L2" } :=
  ⟨(registerActionEvent_conflict samplePendingState "L2" "L2").1 "host" rfl,
   (registerActionEvent_conflict initState "L1" "L1").2.1 rfl,
   (registerActionEvent_conflict samplePendingState "L2" "L2").2.2
     (applyE samplePendingState (unregisterActionEvent samplePendingState)) rfl⟩

/-- C7: Actions() always succeeds: at every observation point it returns
the snapshot of exactly the currently pending actions of the Action Store,
ordered by persistence timestamp — in particular it is the empty sequence,
not a failure, when no PendingAction exists. -/
theorem actions_total_ordered_snapshot (tt : TransitionTable) (ops : List Op) :
    actions (runOps tt initState ops) = .ok (runOps tt initState ops).store ∧
    (runOps tt initState ops).store.Pairwise
      (fun a b => a.registeredAt < b.registeredAt) :=
  ⟨rfl, (inv_runOps tt ops).2.1⟩

/-- C8: whenever a PendingAction is visible in an Actions() snapshot, its
action event was delivered to the single listener at the micro-step right
after it was persisted, strictly before the observation point of the
snapshot — listener delivery precedes the action's appearance through
Actions(). -/
theorem actionEvent_delivery_precedes_snapshot (tt : TransitionTable)
    (ops : List Op) (l : List PendingAction) (a : PendingAction)
    (hl : actions (runOps tt initState ops) = .ok l) (ha : a ∈ l) :
    LogEntry.deliveredActionEvent a.piid (a.registeredAt + 1) ∈
      (runOps tt initState ops).log ∧
    a.registeredAt + 1 < (runOps tt initState ops).clock := by
  have hinv := inv_runOps tt ops
  have hl' : l = (runOps tt initState ops).store := by
    unfold actions at hl
    cases hl
    rfl
  subst hl'
  exact ⟨(hinv.2.2 a ha).2, (hinv.2.2 a ha).1⟩

theorem actionEvent_delivery_precedes_snapshot_witness :
    LogEntry.deliveredActionEvent samplePending.piid
      (samplePending.registeredAt + 1) ∈
      (runOps introduceTable initState
        [Op.inbound true "piid-1" "introduce"
          { msgType := "proposal", body := "b" }]).log ∧
    samplePending.registeredAt + 1 <
      (runOps introduceTable initState
        [Op.inbound true "piid-1" "introduce"
          { msgType := "proposal", body := "b" }]).clock :=
  actionEvent_delivery_precedes_snapshot introduceTable
    [Op.inbound true "piid-1" "introduce" { msgType := "proposal", body := "b" }]
    [samplePending] samplePending rfl (by simp)

end Engine

namespace Sidetree

/-- Multihash code sha2-256: `sha2_256 = 18` in the source. -/
def sha2_256 : Nat := 18

/-- `defaultKeyType = "JwsVerificationKey2020"` in the source. -/
def defaultKeyType : String := "JwsVerificationKey2020"

/-- A JWK (`jose.JWK`): its key material is opaque to this code. -/
structure JWK where
  key : String
deriving DecidableEq, Repr

/-- The external collaborator functions called by the sidetree helper
(sidetree-core-go's pubkey/commitment packages, JSON marshalling, the
JWK's public-key bytes, base58): abstract fallible functions, since their
internals are outside this repository. -/
structure Collab where
  getPublicKeyJWK : String → Except String String
  marshal : String → Except String String
  calculate : String → Nat → Except String String
  publicKeyBytes : String → Except String String
  base58Encode : String → String

/-- `CreateDIDParams` defines parameters for `CreateDID()`. -/
structure CreateDIDParams where
  URL : String
  KeyID : String
  JWK : JWK
  KeyType : String
  ServiceEndpoint : String
deriving DecidableEq, Repr

/-- One entry of the docTemplate's `publicKey` array: id, type (field
`keyType` here), purpose `["auth", "general"]` and the marshalled jwk. -/
structure PublicKeyEntry where
  id : String
  keyType : String
  purpose : List String
  jwk : String
deriving DecidableEq, Repr

/-- The docTemplate's single `service` entry. -/
structure ServiceEntry where
  id : String
  svcType : String
  endpoint : String
  recipientKeys : List String
deriving DecidableEq, Repr

/-- The document data built by filling docTemplate: exactly one public-key
entry and one did-communication service entry. -/
structure Document where
  publicKey : List PublicKeyEntry
  service : List ServiceEntry
deriving DecidableEq, Repr

/-- `getPubKey`: obtain the JWK's public key and marshal it to JSON, both
via external collaborators. -/
def getPubKey (c : Collab) (jwk : JWK) : Except String String := do
  let publicKey ← c.getPublicKeyJWK jwk.key
  c.marshal publicKey

/-- `getOpaqueDocument`: build the opaque DID document from the params per
docTemplate — one public key, whose type is `defaultKeyType` when
`params.KeyType` is the empty string and `params.KeyType` verbatim
otherwise, and one did-communication service entry.  The external
`document.FromBytes` / `doc.Bytes()` round-trip is modelled as the
identity on the structured document. -/
def getOpaqDocument (c : Collab) (params : CreateDIDParams) :
    Except String Document := do
  let opsPubKey ← getPubKey c params.JWK
  let keyBytes ← c.publicKeyBytes params.JWK.key
  let keyType := if params.KeyType = "" then defaultKeyType else params.KeyType
  pure
    { publicKey := [{ id := params.KeyID, keyType := keyType,
                      purpose := ["auth", "general"], jwk := opsPubKey }],
      service := [{ id := "hub", svcType := "did-communication",
                    endpoint := params.ServiceEndpoint,
                    recipientKeys := [c.base58Encode keyBytes] }] }

/-- `helper.CreateRequestInfo`: the create request handed to
`helper.NewCreateRequest` (field `opaqDocument` models OpaqueDocument). -/
structure CreateRequestInfo where
  opaqDocument : String
  updateCommitment : String
  recoveryCommitment : String
  multihashCode : Nat
deriving DecidableEq, Repr

/-- `helper.NewCreateRequest` is external (sidetree-core-go); modelled as
returning the request info it would serialize. -/
def newCreateRequest (info : CreateRequestInfo) : Except String CreateRequestInfo :=
  .ok info

/-- `getCreateRequest`: compute the commitment of the JWK's public key
with multihash code sha2-256 and build the create request, using the same
commitment for update and recovery (as the source's comment says, for
testing purposes). -/
def getCreateRequest (c : Collab) (doc : String) (jwk : JWK) :
    Except String CreateRequestInfo := do
  let pubKey ← c.getPublicKeyJWK jwk.key
  let comm ← c.calculate pubKey sha2_256
  newCreateRequest
    { opaqDocument := doc, updateCommitment := comm,
      recoveryCommitment := comm, multihashCode := sha2_256 }

/-- The remaining external collaborators of `CreateDID`: the HTTP POST of
the request (returning the resolution's DIDDocument), the DID-document
parser, and the document serialization passed between
`getOpaqueDocument` and `getCreateRequest`. -/
structure CollabHTTP where
  sendHTTP : String → CreateRequestInfo → Except String String
  parseDocument : String → Except String String
  docBytes : Document → String

/-- `CreateDID` in sidetree: build the opaque document, build the create
request from it, POST it, and parse the resulting DID document. -/
def CreateDID (c : Collab) (h : CollabHTTP) (params : CreateDIDParams) :
    Except String String := do
  let od ← getOpaqDocument c params
  let req ← getCreateRequest c (h.docBytes od) params.JWK
  let rawDoc ← h.sendHTTP params.URL req
  match h.parseDocument rawDoc with
  | .error e => .error ("failed to parse public DID document: " ++ e)
  | .ok doc => pure doc

/-- C9: whenever getCreateRequest succeeds, the create request it builds
carries the same commitment for update and for recovery, computed by the
commitment collaborator from that JWK's public key with multihash code
sha2-256 (18). -/
theorem getCreateRequest_commitments_equal (c : Collab) (doc : String)
    (jwk : JWK) (req : CreateRequestInfo)
    (h : getCreateRequest c doc jwk = .ok req) :
    req.updateCommitment = req.recoveryCommitment ∧
    req.multihashCode = sha2_256 ∧
    ∃ pubKey, c.getPublicKeyJWK jwk.key = .ok pubKey ∧
      c.calculate pubKey sha2_256 = .ok req.updateCommitment := by
  unfold getCreateRequest at h
  simp only [bind, Except.bind] at h
  cases hpk : c.getPublicKeyJWK jwk.key with
  | error e => rw [hpk] at h; simp at h
  | ok pubKey =>
    rw [hpk] at h
    dsimp only at h
    cases hc : c.calculate pubKey sha2_256 with
    | error e => rw [hc] at h; simp at h
    | ok comm =>
      rw [hc] at h
      dsimp only at h
      unfold newCreateRequest at h
      cases h
      exact ⟨rfl, rfl, pubKey, rfl, hc⟩

/-- A concrete collaborator instantiation for the concrete-input
theorems. -/
def sampleCollab : Collab :=
  { getPublicKeyJWK := fun k => .ok ("pub:" ++ k),
    marshal := fun p => .ok ("json:" ++ p),
    calculate := fun p n => .ok ("commit:" ++ p ++ ":" ++ toString n),
    publicKeyBytes := fun k => .ok ("bytes:" ++ k),
    base58Encode := fun b => "b58:" ++ b }

/-- The concrete create request getCreateRequest builds with
sampleCollab. -/
def sampleCreateRequest : CreateRequestInfo :=
  { opaqDocument := "doc", updateCommitment := "commit:pub:k:18",
    recoveryCommitment := "commit:pub:k:18", multihashCode := 18 }

theorem getCreateRequest_commitments_equal_witness :
    sampleCreateRequest.updateCommitment =
      sampleCreateRequest.recoveryCommitment ∧
    sampleCreateRequest.multihashCode = sha2_256 ∧
    ∃ pubKey, sampleCollab.getPublicKeyJWK "k" = .ok pubKey ∧
      sampleCollab.calculate pubKey sha2_256 =
        .ok sampleCreateRequest.updateCommitment :=
  getCreateRequest_commitments_equal sampleCollab "doc" { key := "k" }
    sampleCreateRequest rfl

/-- C10: whenever getOpaqueDocument succeeds, the document has exactly one
public key, whose type is "JwsVerificationKey2020" (defaultKeyType) when
params.KeyType is the empty string and params.KeyType verbatim
otherwise. -/
theorem getOpaqDocument_key_type (c : Collab) (params : CreateDIDParams)
    (doc : Document) (h : getOpaqDocument c params = .ok doc) :
    doc.publicKey.length = 1 ∧
    (params.KeyType = "" →
      doc.publicKey.map (fun k => k.keyType) = [defaultKeyType]) ∧
    (params.KeyType ≠ "" →
      doc.publicKey.map (fun k => k.keyType) = [params.KeyType]) := by
  unfold getOpaqDocument getPubKey at h
  simp only [bind, Except.bind] at h
  cases hpk : c.getPublicKeyJWK params.JWK.key with
  | error e => rw [hpk] at h; simp at h
  | ok pk =>
    rw [hpk] at h
    dsimp only at h
    cases hm : c.marshal pk with
    | error e => rw [hm] at h; simp at h
    | ok m =>
      rw [hm] at h
      dsimp only at h
      cases hb : c.publicKeyBytes params.JWK.key with
      | error e => rw [hb] at h; simp at h
      | ok kb =>
        rw [hb] at h
        dsimp only at h
        simp only [pure, Except.pure] at h
        cases h
        refine ⟨rfl, ?_, ?_⟩
        · intro he
          simp [he]
        · intro he
          simp [he]

/-- The concrete document getOpaqueDocument builds with sampleCollab when
params.KeyType is empty. -/
def sampleDocDefault : Document :=
  { publicKey := [{ id := "kid", keyType := "JwsVerificationKey2020",
                    purpose := ["auth", "general"], jwk := "json:pub:k" }],
    service := [{ id := "hub", svcType := "did-communication",
                  endpoint := "e", recipientKeys := ["b58:bytes:k"] }] }

/-- The concrete document built when params.KeyType is
"Ed25519VerificationKey2018". -/
def sampleDocEd : Document :=
  { publicKey := [{ id := "kid", keyType := "Ed25519VerificationKey2018",
                    purpose := ["auth", "general"], jwk := "json:pub:k" }],
    service := [{ id := "hub", svcType := "did-communication",
                  endpoint := "e", recipientKeys := ["b58:bytes:k"] }] }

theorem getOpaqDocument_key_type_witness :
    (sampleDocDefault.publicKey.length = 1 ∧
     ("" = "" →
       sampleDocDefault.publicKey.map (fun k => k.keyType) = [defaultKeyType]) ∧
     ("" ≠ "" →
       sampleDocDefault.publicKey.map (fun k => k.keyType) = [""])) ∧
    (sampleDocEd.publicKey.length = 1 ∧
     ("Ed25519VerificationKey2018" = "" →
       sampleDocEd.publicKey.map (fun k => k.keyType) = [defaultKeyType]) ∧
     ("Ed25519VerificationKey2018" ≠ "" →
       sampleDocEd.publicKey.map (fun k => k.keyType) =
         ["Ed25519VerificationKey2018"])) :=
  ⟨getOpaqDocument_key_type sampleCollab
     { URL := "u", KeyID := "kid", JWK := { key := "k" }, KeyType := "",
       ServiceEndpoint := "e" } sampleDocDefault rfl,
   getOpaqDocument_key_type sampleCollab
     { URL := "u", KeyID := "kid", JWK := { key := "k" },
       KeyType := "Ed25519VerificationKey2018", ServiceEndpoint := "e" }
     sampleDocEd rfl⟩

end Sidetree
